import Mathlib

/-!
Run SQL: a verification development of `main.go`.

The program reads one `.sql` script, looks for a header comment naming the
database kind, splits the script into statements on `;`, asks for host, kind
and credentials through modal dialogs, opens a connection and executes the
statements one by one, reopening the connection on `USE` statements.

Go strings are modelled as lists of characters (`Str`).  Every separator the
program uses is an ASCII character, so for well-formed UTF-8 text the
byte-level behaviour of the Go library functions and the character-level
behaviour of the definitions below coincide.
-/

namespace RunSql

/-- Go `string`, as the list of its characters. -/
abbrev Str := List Char

/-! ## The parts of Go's `strings` package used by the program -/

namespace strings

/-- `strings.HasPrefix(s, prefix)`. -/
def HasPrefix (s pre : Str) : Bool := pre.isPrefixOf s

/-- `strings.HasSuffix(s, suffix)`. -/
def HasSuffix (s suf : Str) : Bool := suf.isSuffixOf s

/-- `strings.TrimPrefix(s, prefix)`: `s` without the leading `prefix`, or `s`
itself when it does not start with it. -/
def TrimPrefix (s pre : Str) : Str :=
  if HasPrefix s pre then s.drop pre.length else s

/-- `strings.Trim(s, cutset)`: `s` with all leading and trailing characters
contained in `cutset` removed. -/
def Trim (s cutset : Str) : Str :=
  (s.dropWhile (fun c => cutset.contains c)).rdropWhile (fun c => cutset.contains c)

/-- Worker of `Split`: `skip` characters of a separator just found are still to
be dropped, `cur` is the piece being read (reversed). -/
def splitAux (sep : Str) : Nat → Str → Str → List Str
  | _, cur, [] => [cur.reverse]
  | skip + 1, cur, _ :: cs => splitAux sep skip cur cs
  | 0, cur, c :: cs =>
    if sep.isPrefixOf (c :: cs) then cur.reverse :: splitAux sep (sep.length - 1) [] cs
    else splitAux sep 0 (c :: cur) cs

/-- `strings.Split(s, sep)`: the pieces of `s` between the successive
non-overlapping occurrences of `sep` (one more piece than occurrences; the
empty string gives one empty piece).  With an empty `sep` Go explodes `s` into
its characters. -/
def Split (s sep : Str) : List Str :=
  if sep = [] then s.map (fun c => [c]) else splitAux sep 0 [] s

/-- Worker of `ReplaceAll`, for a non-empty `old`. -/
def replaceAux (old new : Str) : Nat → Str → Str
  | _, [] => []
  | skip + 1, _ :: cs => replaceAux old new skip cs
  | 0, c :: cs =>
    if old.isPrefixOf (c :: cs) then new ++ replaceAux old new (old.length - 1) cs
    else c :: replaceAux old new 0 cs

/-- `strings.ReplaceAll(s, old, new)`: every non-overlapping occurrence of `old`
in `s`, from the left, replaced by `new`.  With an empty `old` Go inserts `new`
before every character and at the end. -/
def ReplaceAll (s old new : Str) : Str :=
  if old = [] then new ++ (s.map (fun c => c :: new)).flatten else replaceAux old new 0 s

end strings

/-! ## Statement splitter -/

/-- `cleanQueries`: the loop appends the newline-trimmed form of every query
whose trimmed form is not empty. -/
def cleanQueries (queries : List Str) : List Str :=
  queries.foldl
    (fun final query =>
      if strings.Trim query "\n".toList ≠ [] then final ++ [strings.Trim query "\n".toList]
      else final)
    []

/-- `explodeQueries`. -/
def explodeQueries (content : Str) : List Str :=
  cleanQueries (strings.Split content ";".toList)

/-! ## Script loader: the header directive -/

namespace header

/-- The class `\s` of Go's regular expressions: tab, newline, form feed,
carriage return, space. -/
def isSpace (c : Char) : Bool :=
  c == '\t' || c == '\n' || c == Char.ofNat 12 || c == '\r' || c == ' '

/-- The class `[\s*]`. -/
def isSpaceOrStar (c : Char) : Bool := isSpace c || c == '*'

/-- The alternatives of the capture group `(MySQL|MariaDB|PostgresSQL)`, in the
order of the pattern. -/
def kinds : List Str := ["MySQL".toList, "MariaDB".toList, "PostgresSQL".toList]

/-- A literal piece of the pattern: the text after it, when the text starts with it. -/
def lit (p s : Str) : Option Str :=
  if p.isPrefixOf s then some (s.drop p.length) else none

/-- An alternation of literals: the first alternative, in order, the text starts
with, and the text after it.  No alternative of `kinds` is a prefix of another,
so at most one can match and there is nothing to backtrack into. -/
def alt : List Str → Str → Option (Str × Str)
  | [], _ => none
  | k :: ks, s => if k.isPrefixOf s then some (k, s.drop k.length) else alt ks s

/-- The pattern `/[*]+[\s*]*Database:\s*(MySQL|MariaDB|PostgresSQL)[\s*]+/`
matched at the start of `s`: the capture group and the text after the match.
Each repetition is greedy and is followed by a character outside its class
(`D`, then `M` or `P`, then `/`), so a match consumes the whole run of class
characters and giving characters back can never help: the match at a given
start is unique. -/
def matchAt (s : Str) : Option (Str × Str) :=
  match s with
  | '/' :: '*' :: r1 =>
    match lit "Database:".toList (r1.dropWhile isSpaceOrStar) with
    | none => none
    | some r3 =>
      match alt kinds (r3.dropWhile isSpace) with
      | none => none
      | some (k, r5) =>
        if r5.takeWhile isSpaceOrStar = [] then none
        else
          match r5.dropWhile isSpaceOrStar with
          | '/' :: r7 => some (k, r7)
          | _ => none
  | _ => none

/-- The language of the pattern, read off the regular expression piece by
piece: `/`, one or more `*`, any run of `[\s*]`, `Database:`, any run of `\s`,
one of the three names, a non-empty run of `[\s*]`, `/`; `k` is the text of the
capture group and `rest` the text after the match. -/
def Matches (s k rest : Str) : Prop :=
  ∃ stars ws1 ws2 ws3 : Str,
    s = "/".toList ++ stars ++ ws1 ++ "Database:".toList ++ ws2 ++ k ++ ws3 ++ "/".toList ++ rest ∧
    stars ≠ [] ∧ (∀ c ∈ stars, c = '*') ∧ (∀ c ∈ ws1, isSpaceOrStar c = true) ∧
    (∀ c ∈ ws2, isSpace c = true) ∧ k ∈ kinds ∧
    ws3 ≠ [] ∧ (∀ c ∈ ws3, isSpaceOrStar c = true)

/-- Leftmost match of `(?m)^` followed by the pattern of `matchAt`: `bol` tells
whether the current position is the start of the text or follows a newline.
The result is the slice of `FindStringSubmatch`: empty when nothing matches,
otherwise the whole match and the capture group. -/
def findAux : Bool → Str → List Str
  | _, [] => []
  | bol, c :: cs =>
    match (if bol then matchAt (c :: cs) else none) with
    | some (k, rest) => [(c :: cs).take ((c :: cs).length - rest.length), k]
    | none => findAux (c == '\n') cs

/-- The call
`regexp.MustCompile(...).FindStringSubmatch(content)` of `getDbType`. -/
def FindStringSubmatch (content : Str) : List Str := findAux true content

end header

/-- `idExists`: the loop over the indices of `items` finds `id`. -/
def idExists {T : Type} (id : Nat) (items : List T) : Bool :=
  (List.range items.length).any (fun i => i == id)

/-- `getDbType`: both results are named results, zero-valued (empty) on entry;
they are assigned only when the header pattern matches. -/
def getDbType (content : Str) : Str × Str :=
  let ms := header.FindStringSubmatch content
  if idExists 1 ms then
    (ms.getD 1 [], strings.Trim (strings.ReplaceAll content (ms.getD 0 []) []) "\n".toList)
  else
    ([], [])

/-! ## Database kinds and connection strings -/

/-- Go `type DBType string`. -/
abbrev DBType := Str

def MYSQL : DBType := "MySQL".toList
def MARIA : DBType := "MariaDB".toList
def POSTG : DBType := "PostgreSQL".toList

/-- The map `dbTypeValues`, as its list of entries (read with `List.lookup`). -/
def dbTypeValues : List (DBType × Str) :=
  [(MYSQL, "mysql".toList), (MARIA, "mysql".toList), (POSTG, "postgres".toList)]

/-- The map `dbTypeCnxStringFormats`, as its list of entries. -/
def dbTypeCnxStringFormats : List (DBType × (Str → Str → Str → Str → Str)) :=
  [ (MYSQL, fun username password host dbname =>
      let host := if host ≠ [] then "tcp(".toList ++ host ++ ")".toList else host
      username ++ ":".toList ++ password ++ "@".toList ++ host ++ "/".toList ++ dbname),
    (MARIA, fun username password host dbname =>
      let host := if host ≠ [] then "tcp(".toList ++ host ++ ")".toList else host
      username ++ ":".toList ++ password ++ "@".toList ++ host ++ "/".toList ++ dbname),
    (POSTG, fun username password host dbname =>
      "postgres://".toList ++ username ++ ":".toList ++ password ++ "@".toList ++ host
        ++ "/".toList ++ dbname ++ "?sslmode=disable".toList) ]

/-- Go `type DBCredentials struct`. -/
structure DBCredentials where
  username : Str
  password : Str
  host : Str
deriving DecidableEq, Repr

/-- `selectSqlFiles`. -/
def selectSqlFiles (files : List Str) : List Str :=
  files.foldl
    (fun final file => if strings.HasSuffix file ".sql".toList then final ++ [file] else final)
    []

/-! ## The outside world and the observable behaviour of a run -/

/-- A live `*sql.DB`; the nil pointer is `none : Option Handle`. -/
abbrev Handle := Nat

/-- What the collaborators of one run answer: the file system, the dialogs and
the database driver.  Every field is arbitrary. -/
structure World where
  /-- Content returned by `os.ReadFile` (the error is discarded by `main`). -/
  readFile : Str → Str
  /-- Answer of `zenity.Entry` (empty when cancelled). -/
  entry : Str
  /-- Answer of `zenity.ListItems` (empty when cancelled). -/
  listItems : Str
  /-- Answer of `zenity.Password`: username and password. -/
  password : Str × Str
  /-- Result of `sql.Open driverName dataSourceName`; `none` is an error. -/
  sqlOpen : Str → Str → Option Handle
  /-- Outcome of `db.Exec` for the statement at a position of the statement
  list: `true` when it returns no error. -/
  exec : Nat → Bool
  /-- Outcome of `db.Close`: `true` when it returns no error. -/
  close : Handle → Bool

/-- The observable actions of a run, in the order they happen. -/
inductive Event where
  /-- `zenity.Entry` is shown. -/
  | entry (label title defaultValue : Str)
  /-- `zenity.ListItems` is shown. -/
  | listItems (label : Str) (items : List Str)
  /-- `zenity.Password` is shown. -/
  | password (title : Str)
  /-- `openDatabase` is called. -/
  | openDatabase (username password host dbname : Str)
  /-- `sql.Open` is called. -/
  | sqlOpen (driverName dataSourceName : Str)
  /-- `zenity.Error` is shown; `message` is the fixed part of the text. -/
  | error (message title : Str)
  /-- `db.Exec(query)` is called on a live handle. -/
  | exec (db : Handle) (query : Str)
  /-- `zenity.Notify` is shown by `notifySuccess`. -/
  | notify (message : Str)
  /-- `db.Close()` is called on a live handle. -/
  | close (db : Handle)
deriving DecidableEq, Repr

/-- A Go call either returns a value or panics (a nil function is called, a nil
`*sql.DB` is dereferenced). -/
inductive Res (α : Type) where
  | ok (a : α)
  | panic
deriving DecidableEq, Repr

/-- How the statement loop of `main` ends. -/
inductive Outcome where
  /-- Every statement was executed and `notifySuccess` was called. -/
  | done
  /-- `execQuery` returned nil and `main` returned. -/
  | failed
  /-- The run crashed with a Go panic. -/
  | panicked
deriving DecidableEq, Repr

def errorTitle : Str := "Run SQL - Erreur".toList

/-- `inputHost`. -/
def inputHost (w : World) (label title defaultValue : Str) : List Event × Str :=
  ([Event.entry label ("Run SQL - ".toList ++ title) defaultValue], w.entry)

/-- `inputDbType`; `dbType` is the global variable it reads. -/
def inputDbType (w : World) (dbType : Str) (label : Str) (items : List Str) : List Event × Str :=
  if dbType = [] then ([Event.listItems label items], w.listItems)
  else ([], dbType)

/-- `inputLoginData`. -/
def inputLoginData (w : World) (title : Str) : List Event × (Str × Str) :=
  let username := w.password.1
  let password := w.password.2
  let password := if username ≠ [] ∧ password = [] then username else password
  ([Event.password ("Run SQL - ".toList ++ title)], (username, password))

/-- `notifySuccess`. -/
def notifySuccess (message : Str) : List Event := [Event.notify message]

/-- `openDatabase`; `dbType` is the global variable it reads.  A missing key of
`dbTypeValues` reads as the empty string; a missing key of
`dbTypeCnxStringFormats` reads as a nil function, whose call panics. -/
def openDatabase (w : World) (dbType : Str) (username password host dbname : Str) :
    List Event × Res (Option Handle) :=
  match dbTypeCnxStringFormats.lookup dbType with
  | none => ([Event.openDatabase username password host dbname], Res.panic)
  | some format =>
    let driverName := (dbTypeValues.lookup dbType).getD []
    let dataSourceName := format username password host dbname
    match w.sqlOpen driverName dataSourceName with
    | none =>
      ([Event.openDatabase username password host dbname, Event.sqlOpen driverName dataSourceName,
        Event.error "Connexion à la base de données impossible: ".toList errorTitle],
       Res.ok none)
    | some db =>
      ([Event.openDatabase username password host dbname, Event.sqlOpen driverName dataSourceName],
       Res.ok (some db))

/-- `execQuery` for the statement at position `i`: `some true` is a non-nil
result, `some false` the nil result after the error dialog; a nil `db` panics. -/
def execQuery (w : World) (i : Nat) (db : Option Handle) (query : Str) :
    List Event × Res Bool :=
  match db with
  | none => ([], Res.panic)
  | some h =>
    if w.exec i then ([Event.exec h query], Res.ok true)
    else
      ([Event.exec h query,
        Event.error "Execution de la requête SQL impossible: ".toList errorTitle],
       Res.ok false)

/-- `recreateDatabaseConnexionWhenUseInstruction`. -/
def recreateDatabaseConnexionWhenUseInstruction (w : World) (dbType : Str) (query : Str)
    (credentials : DBCredentials) : List Event × Res (Option Handle) :=
  if strings.HasPrefix query "USE ".toList then
    let name := strings.Trim (strings.TrimPrefix query "USE ".toList) "`".toList
    openDatabase w dbType credentials.username credentials.password credentials.host name
  else
    ([], Res.ok none)

/-- The statement loop of `main` and the call of `notifySuccess` after it:
`i` is the position of the first statement of `queries` in the whole list,
`db` the current handle, `file` the processed path (`args[0]`). -/
def mainLoop (w : World) (dbType : Str) (credentials : DBCredentials) (file : Str) :
    Nat → Option Handle → List Str → List Event × Outcome
  | _, _, [] =>
    (notifySuccess ("Votre script SQL ".toList ++ file ++ " as été executé avec succès.".toList),
     Outcome.done)
  | i, db, query :: queries =>
    match recreateDatabaseConnexionWhenUseInstruction w dbType query credentials with
    | (ev, Res.panic) => (ev, Outcome.panicked)
    | (ev, Res.ok database) =>
      let db := if database.isSome then database else db
      match execQuery w i db query with
      | (ev2, Res.panic) => (ev ++ ev2, Outcome.panicked)
      | (ev2, Res.ok false) => (ev ++ ev2, Outcome.failed)
      | (ev2, Res.ok true) =>
        let r := mainLoop w dbType credentials file (i + 1) db queries
        (ev ++ ev2 ++ r.1, r.2)

/-- The deferred function of `main`, called with the handle of the first
`openDatabase`: closing a nil handle panics. -/
def deferredClose (w : World) (db : Option Handle) : List Event × Res Unit :=
  match db with
  | none => ([], Res.panic)
  | some h =>
    if w.close h then ([Event.close h], Res.ok ())
    else ([Event.close h, Event.error [] errorTitle], Res.ok ())

/-- `main`; `osArgs` is `os.Args`.  The result is the trace of the run and
whether it panicked. -/
def main (w : World) (osArgs : List Str) : List Event × Res Unit :=
  match selectSqlFiles (osArgs.drop 1) with
  | [] => ([], Res.ok ())
  | file :: _ =>
    let strContent := w.readFile file
    let (dbType, strContent) := getDbType strContent
    let queries := explodeQueries strContent
    let (ev1, host) := inputHost w "Saisissez le domaine de la base de données :".toList
      "Domain".toList "localhost".toList
    let (ev2, dbType) := inputDbType w dbType "De quelle type est la base de données ?".toList
      [MYSQL, MARIA, POSTG]
    let (ev3, (username, password)) := inputLoginData w "Connexion".toList
    match openDatabase w dbType username password host [] with
    | (ev4, Res.panic) => (ev1 ++ ev2 ++ ev3 ++ ev4, Res.panic)
    | (ev4, Res.ok db) =>
      let r := mainLoop w dbType ⟨username, password, host⟩ file 0 db queries
      let c := deferredClose w db
      (ev1 ++ ev2 ++ ev3 ++ ev4 ++ r.1 ++ c.1,
       if r.2 = Outcome.panicked then Res.panic else c.2)

/-! ## Reading a trace -/

/-- The statements executed, with the handle each was executed against. -/
def executed : List Event → List (Handle × Str)
  | [] => []
  | Event.exec db query :: t => (db, query) :: executed t
  | _ :: t => executed t

/-- The messages of the success notifications. -/
def notifications : List Event → List Str
  | [] => []
  | Event.notify message :: t => message :: notifications t
  | _ :: t => notifications t

/-- The calls of `openDatabase`: username, password, host, database name. -/
def openCalls : List Event → List (Str × Str × Str × Str)
  | [] => []
  | Event.openDatabase u p h d :: t => (u, p, h, d) :: openCalls t
  | _ :: t => openCalls t

/-- A sample world: a script with a header and five statements, every dialog
answered, every connection opened (handle = length of the connection string),
the statement at position 2 failing. -/
def sampleWorld : World where
  readFile := fun _ => "/* Database: MySQL */\nA;\nUSE `mydb`;\nC;\nD;\nE;\n".toList
  entry := "localhost".toList
  listItems := "MariaDB".toList
  password := ("root".toList, [])
  sqlOpen := fun _ dsn => some dsn.length
  exec := fun i => i != 2
  close := fun _ => true

/-- The sample world with another script. -/
def sampleWorldWith (script : Str) : World :=
  { sampleWorld with readFile := fun _ => script, exec := fun _ => true }

/-- The database name of a `USE` statement as the specification words it: the
text with ONE wrapping pair of backticks removed, when it has one. -/
def stripBacktickPair (name : Str) : Str :=
  if 2 ≤ name.length ∧ name.head? = "`".toList.head? ∧ name.getLast? = "`".toList.head? then
    (name.drop 1).dropLast
  else name

/-- The handle a statement's reconnection gives: the one `openDatabase` returns
for a `USE` statement whose reopen succeeds, none for any other statement. -/
def reopened (w : World) (dbType : Str) (credentials : DBCredentials) (query : Str) :
    Option Handle :=
  match (recreateDatabaseConnexionWhenUseInstruction w dbType query credentials).2 with
  | Res.ok (some h) => some h
  | _ => none

/-- The handle in force after the statements `stmts`, as the specification
words it: the handle of the latest successful `USE` among them, and the handle
`db` held before them when none of them reconnects. -/
def handleFor (w : World) (dbType : Str) (credentials : DBCredentials) (db : Option Handle)
    (stmts : List Str) : Option Handle :=
  match (stmts.filterMap (reopened w dbType credentials)).getLast? with
  | some h => some h
  | none => db

/-- The statements after a first `USE` in a script that reconnects twice. -/
def twoUseTail : List Str := ["A".toList, "USE `bb`".toList, "B".toList]

/-- Five statements; in `sampleWorld` the third one fails. -/
def fiveStatements : List Str := ["A".toList, "B".toList, "C".toList, "D".toList, "E".toList]

def sampleCredentials : DBCredentials := ⟨"root".toList, "root".toList, "localhost".toList⟩

/-- The message of the success notification for the processed path `file`. -/
def successMessage (file : Str) : Str :=
  "Votre script SQL ".toList ++ file ++ " as été executé avec succès.".toList

/-! ## Statement splitter: lemmas -/

/-- Statement splitter as the specification words it: split on every `;`, trim
the newline characters at both ends of each piece, drop the pieces that are
empty after trimming. -/
def explodeQueriesSpec (s : Str) : List Str :=
  ((s.splitOn ';').map
      (fun piece => (piece.dropWhile (fun c => c == '\n')).rdropWhile (fun c => c == '\n'))).filter
    (fun piece => piece ≠ [])

theorem isPrefixOf_single (c x : Char) (xs : Str) :
    List.isPrefixOf [c] (x :: xs) = (x == c) := by
  by_cases h : x = c
  · subst h; simp [List.isPrefixOf]
  · have h2 : ¬ c = x := fun e => h e.symm
    simp [List.isPrefixOf, h, h2]

theorem splitAux_single (c : Char) (s cur : Str) :
    strings.splitAux [c] 0 cur s = (s.splitOn c).modifyHead (fun piece => cur.reverse ++ piece) := by
  induction s generalizing cur with
  | nil => simp [strings.splitAux, List.splitOn]
  | cons x xs ih =>
    rw [strings.splitAux, isPrefixOf_single, List.splitOn, List.splitOnP_cons]
    by_cases h : x = c
    · subst h
      have h0 := ih []
      simp only [List.reverse_nil, List.nil_append] at h0
      have hid : ∀ l : List Str, l.modifyHead (fun piece => piece) = l := by
        intro l; cases l <;> rfl
      rw [hid] at h0
      simp [h0, List.splitOn]
    · have hb : (x == c) = false := by simpa using h
      simp only [hb, Bool.false_eq_true, if_false]
      rw [ih (x :: cur), List.splitOn]
      cases List.splitOnP (fun y => y == c) xs with
      | nil => simp
      | cons p ps => simp

theorem Split_single (c : Char) (s : Str) : strings.Split s [c] = s.splitOn c := by
  have h := splitAux_single c s []
  simp only [List.reverse_nil, List.nil_append] at h
  simp only [strings.Split, List.cons_ne_self, if_false, h]
  cases s.splitOn c <;> simp

theorem Trim_single (c : Char) (s : Str) :
    strings.Trim s [c] = (s.dropWhile (fun x => x == c)).rdropWhile (fun x => x == c) := by
  have h : (fun x => List.contains [c] x) = (fun x => x == c) := by
    funext x; simp only [List.contains, List.elem]; cases (x == c) <;> rfl
  simp only [strings.Trim, h]

theorem foldl_append_filter (f : Str → Str) (acc : List Str) (queries : List Str) :
    queries.foldl (fun final query => if f query ≠ [] then final ++ [f query] else final) acc
      = acc ++ (queries.map f).filter (fun q => q ≠ []) := by
  induction queries generalizing acc with
  | nil => simp
  | cons q qs ih =>
    rw [List.foldl_cons, ih]
    by_cases h : f q = []
    · simp [h]
    · simp [h]

theorem cleanQueries_eq (queries : List Str) :
    cleanQueries queries
      = (queries.map (fun q => strings.Trim q "\n".toList)).filter (fun q => q ≠ []) := by
  have h := foldl_append_filter (fun q => strings.Trim q "\n".toList) [] queries
  simpa only [List.nil_append] using h

theorem explodeQueries_eq_spec (s : Str) : explodeQueries s = explodeQueriesSpec s := by
  have h1 : explodeQueries s = cleanQueries (strings.Split s [';']) := rfl
  have h2 : (fun q => strings.Trim q "\n".toList)
      = (fun piece : Str =>
          (piece.dropWhile (fun c => c == '\n')).rdropWhile (fun c => c == '\n')) := by
    funext q; exact Trim_single '\n' q
  rw [h1, Split_single, cleanQueries_eq, h2]
  rfl

theorem not_mem_of_mem_splitOn (c : Char) (s : Str) :
    ∀ piece ∈ s.splitOn c, c ∉ piece := by
  induction s with
  | nil => simp [List.splitOn]
  | cons x xs ih =>
    intro piece hp
    rw [List.splitOn, List.splitOnP_cons] at hp
    by_cases h : x = c
    · have hb : (x == c) = true := by simpa using h
      simp only [hb, if_true, List.mem_cons] at hp
      rcases hp with hp | hp
      · subst hp; simp
      · exact ih piece hp
    · have hb : (x == c) = false := by simpa using h
      simp only [hb, Bool.false_eq_true, if_false] at hp
      have ih2 : ∀ piece ∈ List.splitOnP (fun y => y == c) xs, c ∉ piece := ih
      cases hs : List.splitOnP (fun y => y == c) xs with
      | nil => rw [hs] at hp; simp at hp
      | cons p0 ps =>
        rw [hs] at hp ih2
        simp only [List.modifyHead_cons, List.mem_cons] at hp
        rcases hp with hp | hp
        · subst hp
          have h0 := ih2 p0 (List.mem_cons_self _ _)
          simp only [List.mem_cons, not_or]
          exact ⟨fun e => h e.symm, h0⟩
        · exact ih2 piece (List.mem_cons_of_mem _ hp)

theorem trimmed_ends (f : Char → Bool) (s : Str)
    (hne : (s.dropWhile f).rdropWhile f ≠ []) :
    (∀ x, ((s.dropWhile f).rdropWhile f).head? = some x → f x = false) ∧
    (∀ x, ((s.dropWhile f).rdropWhile f).getLast? = some x → f x = false) := by
  constructor
  · intro x hx
    obtain ⟨t, ht⟩ := List.rdropWhile_prefix f (s.dropWhile f)
    have hd := List.head?_dropWhile_not f s
    cases hr : (s.dropWhile f).rdropWhile f with
    | nil => exact absurd hr hne
    | cons y ys =>
      rw [hr] at hx ht
      simp only [List.head?_cons, Option.some.injEq] at hx
      subst hx
      rw [← ht] at hd
      simpa using hd
  · intro x hx
    have hl := List.rdropWhile_last_not f (s.dropWhile f) hne
    rw [List.getLast?_eq_getLast _ hne] at hx
    simp only [Option.some.injEq] at hx
    subst hx
    simpa using hl

theorem trimmed_subset (f : Char → Bool) (s : Str) :
    ∀ x ∈ (s.dropWhile f).rdropWhile f, x ∈ s := by
  intro x hx
  have h1 : x ∈ s.dropWhile f := (List.rdropWhile_prefix f (s.dropWhile f)).subset hx
  exact List.dropWhile_subset f h1

/-- Membership in the result of `explodeQueries`: the newline-trimmed form of a
piece between two `;`, not empty. -/
theorem mem_explodeQueries (s q : Str) (hq : q ∈ explodeQueries s) :
    q ≠ [] ∧ ∃ piece ∈ s.splitOn ';',
      q = (piece.dropWhile (fun c => c == '\n')).rdropWhile (fun c => c == '\n') := by
  rw [explodeQueries_eq_spec, explodeQueriesSpec, List.mem_filter, List.mem_map] at hq
  obtain ⟨⟨piece, hp, he⟩, hne⟩ := hq
  exact ⟨by simpa using hne, piece, hp, he.symm⟩

/-- C9: `explodeQueries` is: split on every `;`, trim the newline characters at
both ends of each piece, drop the pieces empty after trimming, order kept; so
every returned statement is non-empty, has no `;`, and neither starts nor ends
with a newline character. -/
theorem explodeQueries_split_trim_filter (s : Str) :
    explodeQueries s = explodeQueriesSpec s ∧
    ∀ q ∈ explodeQueries s,
      q ≠ [] ∧ ';' ∉ q ∧ q.head? ≠ some '\n' ∧ q.getLast? ≠ some '\n' := by
  refine ⟨explodeQueries_eq_spec s, ?_⟩
  intro q hq
  obtain ⟨hne, piece, hp, he⟩ := mem_explodeQueries s q hq
  subst he
  have hends := trimmed_ends (fun c => c == '\n') piece hne
  refine ⟨hne, ?_, ?_, ?_⟩
  · intro hmem
    exact not_mem_of_mem_splitOn ';' s piece hp (trimmed_subset _ piece _ hmem)
  · intro h
    have := hends.1 _ h
    simp at this
  · intro h
    have := hends.2 _ h
    simp at this

/-- C2, as the code has it: no returned statement is empty or made of newline
characters only, and the text `A;B;;<space><space><newline>C;` gives the three
statements `A`, `B` and `<space><space><newline>C`. -/
theorem explodeQueries_drops_newline_only (s : Str) :
    (∀ q ∈ explodeQueries s, ¬ (∀ c ∈ q, c = '\n')) ∧
    explodeQueries "A;B;;  \nC;".toList = ["A".toList, "B".toList, "  \nC".toList] := by
  refine ⟨?_, by decide⟩
  intro q hq hall
  obtain ⟨hne, piece, hp, he⟩ := mem_explodeQueries s q hq
  have hends := trimmed_ends (fun c => c == '\n') piece (he ▸ hne)
  cases hq2 : q with
  | nil => exact hne hq2
  | cons x xs =>
    have hx : x = '\n' := hall x (by rw [hq2]; exact List.mem_cons_self _ _)
    have := hends.1 x (by rw [← he, hq2]; rfl)
    simp [hx] at this

/-- C2 as stated fails: the text `A;B;;<space><space><newline>C;` does not give
`A`, `B`, `C`, and the text `A; ;B` gives a statement that is a single space. -/
theorem explodeQueries_keeps_whitespace :
    explodeQueries "A;B;;  \nC;".toList ≠ ["A".toList, "B".toList, "C".toList] ∧
    " ".toList ∈ explodeQueries "A; ;B".toList ∧
    (∀ c ∈ " ".toList, c = ' ' ∨ c = '\n') := by
  decide

/-! ## Script loader -/

theorem getDbType_no_match (content : Str) (h : header.FindStringSubmatch content = []) :
    getDbType content = ([], []) := by
  simp [getDbType, h, idExists]

theorem findAux_no_slash (content : Str) (h : '/' ∉ content) (bol : Bool) :
    header.findAux bol content = [] := by
  induction content generalizing bol with
  | nil => rfl
  | cons c cs ih =>
    have hc : c ≠ '/' := fun e => h (by simp [e])
    have hcs : '/' ∉ cs := fun e => h (List.mem_cons_of_mem _ e)
    have hm : header.matchAt (c :: cs) = none := by
      unfold header.matchAt
      split
      · rename_i heq
        simp only [List.cons.injEq] at heq
        exact absurd heq.1 hc
      · rfl
    rw [header.findAux, hm]
    cases bol <;> simp [ih hcs]

/-- A script without any `/` has no header directive: `getDbType` returns an
empty kind and an empty content. -/
theorem getDbType_no_slash (content : Str) (h : '/' ∉ content) :
    getDbType content = ([], []) :=
  getDbType_no_match content (findAux_no_slash content h true)

theorem alt_kinds (k : Str) (hk : k ∈ header.kinds) (t : Str) :
    header.alt header.kinds (k ++ t) = some (k, t) := by
  simp only [header.kinds, List.mem_cons, List.mem_singleton, List.not_mem_nil, or_false] at hk
  rcases hk with h | h | h <;> subst h <;>
    simp [header.alt, header.kinds, List.isPrefixOf]

theorem alt_some (ks : List Str) (t k r : Str) (h : header.alt ks t = some (k, r)) :
    k ∈ ks ∧ t = k ++ r := by
  induction ks with
  | nil => simp [header.alt] at h
  | cons k0 ks ih =>
    rw [header.alt] at h
    by_cases hp : k0.isPrefixOf t = true
    · simp only [hp, if_true, Option.some.injEq, Prod.mk.injEq] at h
      obtain ⟨h1, h2⟩ := h
      subst h1 h2
      have hpre : k0 <+: t := by simpa using hp
      exact ⟨List.mem_cons_self _ _, (List.prefix_iff_eq_append.mp hpre).symm⟩
    · simp only [hp, Bool.false_eq_true, if_false] at h
      obtain ⟨h1, h2⟩ := ih h
      exact ⟨List.mem_cons_of_mem _ h1, h2⟩

theorem kinds_head (k : Str) (hk : k ∈ header.kinds) (t : Str) :
    ∃ c u, k ++ t = c :: u ∧ header.isSpace c = false := by
  simp only [header.kinds, List.mem_cons, List.mem_singleton, List.not_mem_nil, or_false] at hk
  rcases hk with h | h | h <;> subst h
  · exact ⟨'M', "ySQL".toList ++ t, rfl, by decide⟩
  · exact ⟨'M', "ariaDB".toList ++ t, rfl, by decide⟩
  · exact ⟨'P', "ostgresSQL".toList ++ t, rfl, by decide⟩

/-- The matcher finds every match of the pattern at the start of the text. -/
theorem matchAt_of_Matches (s k rest : Str) (h : header.Matches s k rest) :
    header.matchAt s = some (k, rest) := by
  obtain ⟨stars, ws1, ws2, ws3, hs, hst, hall, h1, h2, hk, h3ne, h3⟩ := h
  subst hs
  cases stars with
  | nil => exact absurd rfl hst
  | cons c stars =>
    have hc : c = '*' := hall c (List.mem_cons_self _ _)
    subst hc
    have hstars : ∀ a ∈ stars, header.isSpaceOrStar a = true := by
      intro a ha
      have := hall a (List.mem_cons_of_mem _ ha)
      subst this; decide
    obtain ⟨c0, u, hku, hc0⟩ := kinds_head k hk (ws3 ++ ('/' :: rest))
    have e1 : List.dropWhile header.isSpaceOrStar
          (stars ++ (ws1 ++ ("Database:".toList ++ (ws2 ++ (k ++ (ws3 ++ ('/' :: rest)))))))
        = "Database:".toList ++ (ws2 ++ (k ++ (ws3 ++ ('/' :: rest)))) := by
      rw [List.dropWhile_append_of_pos hstars, List.dropWhile_append_of_pos h1]
      rfl
    have e2 : List.dropWhile header.isSpace (ws2 ++ (k ++ (ws3 ++ ('/' :: rest))))
        = k ++ (ws3 ++ ('/' :: rest)) := by
      rw [List.dropWhile_append_of_pos h2, hku, List.dropWhile_cons_of_neg (by simp [hc0])]
    have e3 : List.dropWhile header.isSpaceOrStar (ws3 ++ ('/' :: rest)) = '/' :: rest := by
      rw [List.dropWhile_append_of_pos h3]; rfl
    have e4 : List.takeWhile header.isSpaceOrStar (ws3 ++ ('/' :: rest)) = ws3 := by
      rw [List.takeWhile_append_of_pos h3]
      have : List.takeWhile header.isSpaceOrStar ('/' :: rest) = [] := rfl
      rw [this, List.append_nil]
    have e5 : header.lit "Database:".toList
        ("Database:".toList ++ (ws2 ++ (k ++ (ws3 ++ ('/' :: rest)))))
        = some (ws2 ++ (k ++ (ws3 ++ ('/' :: rest)))) := by
      simp [header.lit, List.isPrefixOf]
    have hform : "/".toList ++ ('*' :: stars) ++ ws1 ++ "Database:".toList ++ ws2 ++ k ++ ws3
        ++ "/".toList ++ rest
        = '/' :: '*' ::
          (stars ++ (ws1 ++ ("Database:".toList ++ (ws2 ++ (k ++ (ws3 ++ ('/' :: rest))))))) := by
      simp
    rw [hform, header.matchAt]
    simp only [e1, e5, e2, alt_kinds k hk, e4, e3, h3ne, if_false]

/-- Every match the matcher reports is a match of the pattern. -/
theorem Matches_of_matchAt (s k rest : Str) (h : header.matchAt s = some (k, rest)) :
    header.Matches s k rest := by
  unfold header.matchAt at h
  split at h
  · rename_i r1
    split at h
    · exact absurd h (by simp)
    · rename_i r3 hlit
      split at h
      · exact absurd h (by simp)
      · rename_i k2 r5 halt
        split at h
        · exact absurd h (by simp)
        · rename_i hne
          split at h
          · rename_i r7 hdrop
            simp only [Option.some.injEq, Prod.mk.injEq] at h
            obtain ⟨hk, hr⟩ := h
            subst hk hr
            have hl : r1.dropWhile header.isSpaceOrStar = "Database:".toList ++ r3 := by
              unfold header.lit at hlit
              by_cases hp : List.isPrefixOf "Database:".toList
                  (r1.dropWhile header.isSpaceOrStar) = true
              · simp only [hp, if_true, Option.some.injEq] at hlit
                have hpre : "Database:".toList <+: r1.dropWhile header.isSpaceOrStar := by
                  simpa using hp
                rw [← hlit]
                exact (List.prefix_iff_eq_append.mp hpre).symm
              · simp only [hp, Bool.false_eq_true, if_false] at hlit
                exact absurd hlit (by simp)
            obtain ⟨hk, ha⟩ := alt_some _ _ _ _ halt
            refine ⟨['*'], r1.takeWhile header.isSpaceOrStar, r3.takeWhile header.isSpace,
              r5.takeWhile header.isSpaceOrStar, ?_, by simp, by simp, ?_, ?_, hk, hne, ?_⟩
            · have a1 := List.takeWhile_append_dropWhile header.isSpaceOrStar r1
              have a2 := List.takeWhile_append_dropWhile header.isSpace r3
              have a3 := List.takeWhile_append_dropWhile header.isSpaceOrStar r5
              rw [hl] at a1
              rw [ha] at a2
              rw [hdrop] at a3
              conv_lhs => rw [← a1]
              conv_lhs => rw [← a2]
              conv_lhs => rw [← a3]
              simp
            · intro c hc; exact List.mem_takeWhile_imp hc
            · intro c hc; exact List.mem_takeWhile_imp hc
            · intro c hc; exact List.mem_takeWhile_imp hc
          · exact absurd h (by simp)
  · exact absurd h (by simp)

/-- The matcher decides the pattern: it reports `k` and `rest` exactly when the
text is a match of the pattern with capture group `k`, followed by `rest`; so a
text has at most one match at its start, whatever the matching strategy. -/
theorem matchAt_eq_some_iff (s k rest : Str) :
    header.matchAt s = some (k, rest) ↔ header.Matches s k rest :=
  ⟨Matches_of_matchAt s k rest, matchAt_of_Matches s k rest⟩

/-- C3: on the script `SELECT 1;`, which has no header directive, `getDbType`
returns an empty kind and an EMPTY content, not the script: `explodeQueries`
then gets no statement, and the run executes nothing and notifies success. -/
theorem getDbType_headerless_content_lost :
    header.FindStringSubmatch "SELECT 1;".toList = [] ∧
    getDbType "SELECT 1;".toList = ([], []) ∧
    explodeQueries (getDbType "SELECT 1;".toList).2 = [] ∧
    explodeQueries "SELECT 1;".toList = ["SELECT 1".toList] ∧
    executed (main (sampleWorldWith "SELECT 1;".toList) ["run".toList, "x.sql".toList]).1 = [] ∧
    notifications (main (sampleWorldWith "SELECT 1;".toList) ["run".toList, "x.sql".toList]).1
      = ["Votre script SQL x.sql as été executé avec succès.".toList] := by
  decide

/-- C4: a script that starts with the header comment `/* Database: K */`, K one
of the three names of the header pattern, gives kind K, and `inputDbType` called
with that kind returns K without showing the kind-selection dialog, whatever
the dialog would answer. -/
theorem header_kind_is_used (K : Str) (hK : K ∈ header.kinds) (rest : Str) :
    (getDbType ("/* Database: ".toList ++ K ++ " */".toList ++ rest)).1 = K ∧
    ∀ (w : World) (label : Str) (items : List Str),
      inputDbType w (getDbType ("/* Database: ".toList ++ K ++ " */".toList ++ rest)).1
        label items = ([], K) := by
  have h1 : (getDbType ("/* Database: ".toList ++ K ++ " */".toList ++ rest)).1 = K := by
    simp only [header.kinds, List.mem_cons, List.mem_singleton, List.not_mem_nil, or_false] at hK
    rcases hK with h | h | h <;> subst h <;>
      simp [getDbType, header.FindStringSubmatch, header.findAux, header.matchAt, header.lit,
        header.alt, header.kinds, header.isSpaceOrStar, header.isSpace, idExists,
        List.isPrefixOf, List.dropWhile, List.takeWhile, List.range, List.range.loop]
  refine ⟨h1, ?_⟩
  intro w label items
  rw [h1]
  have hne : K ≠ [] := by
    intro e; subst e; revert hK; decide
  simp [inputDbType, hne]

theorem header_kind_is_used_witness :
    "MariaDB".toList ∈ header.kinds ∧
    (getDbType ("/* Database: ".toList ++ "MariaDB".toList ++ " */".toList ++ "\nSELECT 1;".toList)).1
      = "MariaDB".toList ∧
    ∀ (w : World) (label : Str) (items : List Str),
      inputDbType w
        (getDbType ("/* Database: ".toList ++ "MariaDB".toList ++ " */".toList
          ++ "\nSELECT 1;".toList)).1
        label items = ([], "MariaDB".toList) :=
  ⟨by decide, header_kind_is_used "MariaDB".toList (by decide) "\nSELECT 1;".toList⟩

/-! ## Connection manager -/

/-- C6: the connection strings and the driver names, per database kind. -/
theorem connection_string_formats (username password host dbname : Str) :
    (∀ k ∈ [MYSQL, MARIA],
      (dbTypeCnxStringFormats.lookup k).map (fun f => f username password host dbname)
        = some (if host = [] then
            username ++ ":".toList ++ password ++ "@/".toList ++ dbname
          else
            username ++ ":".toList ++ password ++ "@tcp(".toList ++ host ++ ")/".toList ++ dbname)) ∧
    (dbTypeCnxStringFormats.lookup POSTG).map (fun f => f username password host dbname)
      = some ("postgres://".toList ++ username ++ ":".toList ++ password ++ "@".toList ++ host
          ++ "/".toList ++ dbname ++ "?sslmode=disable".toList) ∧
    dbTypeValues.lookup MYSQL = some "mysql".toList ∧
    dbTypeValues.lookup MARIA = some "mysql".toList ∧
    dbTypeValues.lookup POSTG = some "postgres".toList := by
  refine ⟨?_, ?_, by decide, by decide, by decide⟩
  · intro k hk
    simp only [List.mem_cons, List.mem_singleton, List.not_mem_nil, or_false] at hk
    rcases hk with h | h <;> subst h
    · by_cases hh : host = [] <;>
        simp [dbTypeCnxStringFormats, List.lookup, MYSQL, MARIA, POSTG, hh]
    · by_cases hh : host = [] <;>
        simp [dbTypeCnxStringFormats, List.lookup, MYSQL, MARIA, POSTG, hh]
  · simp [dbTypeCnxStringFormats, List.lookup, MYSQL, MARIA, POSTG]

/-- C10: the header pattern accepts the name `PostgresSQL`, which is a key of
neither map (their key is `PostgreSQL`): for a script with that header the
driver name reads as empty, the format function is missing and `main` panics in
its first `openDatabase`; the five other names have both entries. -/
theorem header_kind_PostgresSQL_has_no_format :
    (getDbType "/* Database: PostgresSQL */\nSELECT 1;".toList).1 = "PostgresSQL".toList ∧
    dbTypeValues.lookup "PostgresSQL".toList = none ∧
    (dbTypeCnxStringFormats.lookup "PostgresSQL".toList).isNone = true ∧
    (main (sampleWorldWith "/* Database: PostgresSQL */\nSELECT 1;".toList)
      ["run".toList, "x.sql".toList]).2 = Res.panic ∧
    executed (main (sampleWorldWith "/* Database: PostgresSQL */\nSELECT 1;".toList)
      ["run".toList, "x.sql".toList]).1 = [] ∧
    (∀ k ∈ ["MySQL".toList, "MariaDB".toList, "PostgreSQL".toList],
      (dbTypeValues.lookup k).isSome = true ∧ (dbTypeCnxStringFormats.lookup k).isSome = true) := by
  decide

/-! ## Traces -/

theorem executed_append (a b : List Event) : executed (a ++ b) = executed a ++ executed b := by
  induction a with
  | nil => rfl
  | cons e t ih => cases e <;> simp [executed, ih]

theorem notifications_append (a b : List Event) :
    notifications (a ++ b) = notifications a ++ notifications b := by
  induction a with
  | nil => rfl
  | cons e t ih => cases e <;> simp [notifications, ih]

theorem openCalls_append (a b : List Event) :
    openCalls (a ++ b) = openCalls a ++ openCalls b := by
  induction a with
  | nil => rfl
  | cons e t ih => cases e <;> simp [openCalls, ih]

/-- Events of `openDatabase`: one call, no statement, no notification. -/
theorem openDatabase_trace (w : World) (dbType username password host dbname : Str) :
    openCalls (openDatabase w dbType username password host dbname).1
      = [(username, password, host, dbname)] ∧
    executed (openDatabase w dbType username password host dbname).1 = [] ∧
    notifications (openDatabase w dbType username password host dbname).1 = [] := by
  unfold openDatabase
  cases dbTypeCnxStringFormats.lookup dbType with
  | none => simp [openCalls, executed, notifications]
  | some f =>
    simp only
    cases w.sqlOpen ((dbTypeValues.lookup dbType).getD []) (f username password host dbname) <;>
      simp [openCalls, executed, notifications]

/-- With a format function for the kind, `openDatabase` does not panic. -/
theorem openDatabase_no_panic (w : World) (dbType username password host dbname : Str)
    (hfmt : (dbTypeCnxStringFormats.lookup dbType).isSome = true) :
    (openDatabase w dbType username password host dbname).2 ≠ Res.panic := by
  unfold openDatabase
  cases hl : dbTypeCnxStringFormats.lookup dbType with
  | none => rw [hl] at hfmt; simp at hfmt
  | some f =>
    simp only
    cases w.sqlOpen ((dbTypeValues.lookup dbType).getD []) (f username password host dbname) <;>
      simp

/-! ## Interactive parameter collector -/

/-- C7: `inputLoginData` returns `(u, u)` when the prompt gives a non-empty
username `u` with an empty password, and the pair of the prompt otherwise; with
an empty pair, a run on a `.sql` file still calls `openDatabase`, with the
empty username and password. -/
theorem inputLoginData_password_default (w : World) (osArgs : List Str)
    (hfile : selectSqlFiles (osArgs.drop 1) ≠ []) (hempty : w.password = ([], [])) :
    (∀ (v : World) (title : Str),
      (inputLoginData v title).2
        = if v.password.1 ≠ [] ∧ v.password.2 = [] then (v.password.1, v.password.1)
          else v.password) ∧
    (inputLoginData w "Connexion".toList).2 = ([], []) ∧
    ([], [], w.entry, []) ∈ openCalls (main w osArgs).1 := by
  refine ⟨?_, ?_, ?_⟩
  · intro v title
    unfold inputLoginData
    by_cases h : v.password.1 ≠ [] ∧ v.password.2 = []
    · simp only [h.2, if_pos h, ne_eq, not_false_eq_true, and_self, if_true]
      simp [h.1]
    · simp only [if_neg h]
  · simp [inputLoginData, hempty]
  · unfold main
    cases hs : selectSqlFiles (osArgs.drop 1) with
    | nil => exact absurd hs hfile
    | cons file others =>
      simp only [inputHost, inputLoginData, hempty]
      have ht := (openDatabase_trace w
        (inputDbType w (getDbType (w.readFile file)).1
          "De quelle type est la base de données ?".toList [MYSQL, MARIA, POSTG]).2
        [] [] w.entry []).1
      split
      · rename_i ev4 heq
        simp only [ne_eq, not_true_eq_false, and_true, and_false, if_false] at heq
        rw [heq] at ht
        have ht2 : openCalls ev4 = [([], [], w.entry, [])] := ht
        simp [openCalls, openCalls_append, ht2]
      · rename_i ev4 db heq
        simp only [ne_eq, not_true_eq_false, and_true, and_false, if_false] at heq
        rw [heq] at ht
        have ht2 : openCalls ev4 = [([], [], w.entry, [])] := ht
        simp [openCalls, openCalls_append, ht2]

theorem inputLoginData_password_default_witness :
    (∀ (v : World) (title : Str),
      (inputLoginData v title).2
        = if v.password.1 ≠ [] ∧ v.password.2 = [] then (v.password.1, v.password.1)
          else v.password) ∧
    (inputLoginData { sampleWorld with password := ([], []) } "Connexion".toList).2 = ([], []) ∧
    ([], [], "localhost".toList, []) ∈
      openCalls (main { sampleWorld with password := ([], []) }
        ["run".toList, "x.sql".toList]).1 :=
  inputLoginData_password_default { sampleWorld with password := ([], []) }
    ["run".toList, "x.sql".toList] (by decide) rfl

/-! ## Statement runner -/

/-- Events of the reconnection step: no statement, no notification. -/
theorem recreate_trace (w : World) (dbType query : Str) (credentials : DBCredentials) :
    executed (recreateDatabaseConnexionWhenUseInstruction w dbType query credentials).1 = [] ∧
    notifications (recreateDatabaseConnexionWhenUseInstruction w dbType query credentials).1
      = [] := by
  unfold recreateDatabaseConnexionWhenUseInstruction
  split
  · exact (openDatabase_trace w dbType _ _ _ _).2
  · exact ⟨rfl, rfl⟩

theorem recreate_no_panic (w : World) (dbType query : Str) (credentials : DBCredentials)
    (hfmt : (dbTypeCnxStringFormats.lookup dbType).isSome = true) :
    (recreateDatabaseConnexionWhenUseInstruction w dbType query credentials).2 ≠ Res.panic := by
  unfold recreateDatabaseConnexionWhenUseInstruction
  split
  · exact openDatabase_no_panic w dbType _ _ _ _ hfmt
  · simp

/-- One turn of the loop, with the reconnection step already evaluated. -/
theorem mainLoop_cons_ok (w : World) (dbType : Str) (credentials : DBCredentials) (file : Str)
    (i : Nat) (db : Option Handle) (query : Str) (queries : List Str)
    (ev : List Event) (database : Option Handle) (h : Handle)
    (hR : recreateDatabaseConnexionWhenUseInstruction w dbType query credentials
      = (ev, Res.ok database))
    (hdb : (if database.isSome then database else db) = some h) :
    mainLoop w dbType credentials file i db (query :: queries) =
      if w.exec i then
        (ev ++ [Event.exec h query]
            ++ (mainLoop w dbType credentials file (i + 1) (some h) queries).1,
          (mainLoop w dbType credentials file (i + 1) (some h) queries).2)
      else
        (ev ++ [Event.exec h query,
            Event.error "Execution de la requête SQL impossible: ".toList errorTitle],
          Outcome.failed) := by
  rw [mainLoop, hR]
  simp only [hdb, execQuery]
  by_cases he : w.exec i = true
  · simp [he]
  · simp [he]

theorem mainLoop_cons_nil_db (w : World) (dbType : Str) (credentials : DBCredentials)
    (file : Str) (i : Nat) (db : Option Handle) (query : Str) (queries : List Str)
    (ev : List Event) (database : Option Handle)
    (hR : recreateDatabaseConnexionWhenUseInstruction w dbType query credentials
      = (ev, Res.ok database))
    (hdb : (if database.isSome then database else db) = none) :
    mainLoop w dbType credentials file i db (query :: queries) = (ev, Outcome.panicked) := by
  rw [mainLoop, hR]
  simp [hdb, execQuery]

theorem mainLoop_cons_panic (w : World) (dbType : Str) (credentials : DBCredentials)
    (file : Str) (i : Nat) (db : Option Handle) (query : Str) (queries : List Str)
    (ev : List Event)
    (hR : recreateDatabaseConnexionWhenUseInstruction w dbType query credentials
      = (ev, Res.panic)) :
    mainLoop w dbType credentials file i db (query :: queries) = (ev, Outcome.panicked) := by
  rw [mainLoop, hR]

/-- One turn of the loop: either it panics before the statement is executed
(missing format function, nil handle), or the statement is executed against a
live handle `h` and the outcome of `db.Exec` decides how the loop goes on. -/
theorem mainLoop_step (w : World) (dbType : Str) (credentials : DBCredentials) (file : Str)
    (i : Nat) (db : Option Handle) (query : Str) (queries : List Str) :
    (∃ ev, executed ev = [] ∧ notifications ev = [] ∧
      mainLoop w dbType credentials file i db (query :: queries) = (ev, Outcome.panicked)) ∨
    (∃ ev h, executed ev = [] ∧ notifications ev = [] ∧
      mainLoop w dbType credentials file i db (query :: queries) =
        if w.exec i then
          (ev ++ [Event.exec h query]
              ++ (mainLoop w dbType credentials file (i + 1) (some h) queries).1,
            (mainLoop w dbType credentials file (i + 1) (some h) queries).2)
        else
          (ev ++ [Event.exec h query,
              Event.error "Execution de la requête SQL impossible: ".toList errorTitle],
            Outcome.failed)) := by
  have ht := recreate_trace w dbType query credentials
  rcases hR : recreateDatabaseConnexionWhenUseInstruction w dbType query credentials with
    ⟨ev, database | _⟩
  · rw [hR] at ht
    cases hdb : (if database.isSome then database else db) with
    | none =>
      exact Or.inl ⟨ev, ht.1, ht.2,
        mainLoop_cons_nil_db w dbType credentials file i db query queries ev database hR hdb⟩
    | some h =>
      exact Or.inr ⟨ev, h, ht.1, ht.2,
        mainLoop_cons_ok w dbType credentials file i db query queries ev database h hR hdb⟩
  · rw [hR] at ht
    exact Or.inl ⟨ev, ht.1, ht.2,
      mainLoop_cons_panic w dbType credentials file i db query queries ev hR⟩

/-- The loop from position `k`, when the first failing statement is `i`
positions further. -/
theorem mainLoop_first_failure (w : World) (dbType : Str) (credentials : DBCredentials)
    (file : Str) (queries : List Str) :
    ∀ (k i : Nat) (db : Option Handle), i < queries.length →
      (∀ j < i, w.exec (k + j) = true) → w.exec (k + i) = false →
      notifications (mainLoop w dbType credentials file k db queries).1 = [] ∧
      (mainLoop w dbType credentials file k db queries).2 ≠ Outcome.done ∧
      (executed (mainLoop w dbType credentials file k db queries).1).map Prod.snd
        <+: queries.take (i + 1) ∧
      ((mainLoop w dbType credentials file k db queries).2 ≠ Outcome.panicked →
        (executed (mainLoop w dbType credentials file k db queries).1).map Prod.snd
          = queries.take (i + 1) ∧
        (mainLoop w dbType credentials file k db queries).2 = Outcome.failed) := by
  induction queries with
  | nil => intro k i db hi; simp at hi
  | cons q qs ih =>
    intro k i db hi hok hfail
    rcases mainLoop_step w dbType credentials file k db q qs with
      ⟨ev, he, hn, hm⟩ | ⟨ev, h, he, hn, hm⟩
    · rw [hm]
      simp [he, hn]
    · cases i with
      | zero =>
        have hx : w.exec k = false := by simpa using hfail
        rw [hm]
        simp [hx, executed_append, notifications_append, he, hn, executed, notifications]
      | succ i =>
        have hx : w.exec k = true := by simpa using hok 0 (Nat.succ_pos i)
        have hi2 : i < qs.length := by simpa using hi
        have hok2 : ∀ j < i, w.exec (k + 1 + j) = true := by
          intro j hj
          have := hok (j + 1) (Nat.succ_lt_succ hj)
          rwa [show k + (j + 1) = k + 1 + j by omega] at this
        have hfail2 : w.exec (k + 1 + i) = false := by
          rwa [show k + (i + 1) = k + 1 + i by omega] at hfail
        obtain ⟨a, b, c, d⟩ := ih (k + 1) i (some h) hi2 hok2 hfail2
        rw [hm]
        simp only [hx, if_true]
        refine ⟨?_, b, ?_, ?_⟩
        · simp [notifications_append, hn, notifications, a]
        · simp only [executed_append, he, executed, List.nil_append, List.cons_append,
            List.map_cons, List.take_succ_cons]
          exact (List.prefix_cons_inj q).mpr c
        · intro hp
          obtain ⟨d1, d2⟩ := d hp
          refine ⟨?_, d2⟩
          simp only [executed_append, he, executed, List.nil_append, List.cons_append,
            List.map_cons, List.take_succ_cons, d1]

/-- With a format function for the kind and a live handle, the loop never panics. -/
theorem mainLoop_no_panic (w : World) (dbType : Str) (credentials : DBCredentials)
    (file : Str) (hfmt : (dbTypeCnxStringFormats.lookup dbType).isSome = true)
    (queries : List Str) :
    ∀ (k : Nat) (h : Handle),
      (mainLoop w dbType credentials file k (some h) queries).2 ≠ Outcome.panicked := by
  induction queries with
  | nil => intro k h; simp [mainLoop]
  | cons q qs ih =>
    intro k h
    have hnp := recreate_no_panic w dbType q credentials hfmt
    rcases hR : recreateDatabaseConnexionWhenUseInstruction w dbType q credentials with
      ⟨ev, database | _⟩
    · have hdb : ∃ h2, (if database.isSome then database else some h) = some h2 := by
        cases database <;> simp
      obtain ⟨h2, hdb⟩ := hdb
      rw [mainLoop_cons_ok w dbType credentials file k (some h) q qs ev database h2 hR hdb]
      by_cases hx : w.exec k = true
      · simp only [hx, if_true]; exact ih (k + 1) h2
      · simp [hx]
    · rw [hR] at hnp; exact absurd rfl hnp

/-- C1: when statement `i` is the first whose execution fails, no success
notification is shown and no statement after `i` is executed; unless the run
crashes with a Go panic, the statements executed are exactly statements `0..i`
in order and the loop ends as failed; and a run that enters the loop with a
live handle and a kind that has a format function does not panic. -/
theorem main_loop_stops_at_first_failure (w : World) (dbType : Str)
    (credentials : DBCredentials) (file : Str) (db : Option Handle) (queries : List Str)
    (i : Nat) (hi : i < queries.length) (hok : ∀ j < i, w.exec j = true)
    (hfail : w.exec i = false) :
    notifications (mainLoop w dbType credentials file 0 db queries).1 = [] ∧
    (executed (mainLoop w dbType credentials file 0 db queries).1).map Prod.snd
      <+: queries.take (i + 1) ∧
    ((mainLoop w dbType credentials file 0 db queries).2 ≠ Outcome.panicked →
      (executed (mainLoop w dbType credentials file 0 db queries).1).map Prod.snd
        = queries.take (i + 1) ∧
      (mainLoop w dbType credentials file 0 db queries).2 = Outcome.failed) ∧
    (db.isSome = true → (dbTypeCnxStringFormats.lookup dbType).isSome = true →
      (mainLoop w dbType credentials file 0 db queries).2 ≠ Outcome.panicked) := by
  have hok2 : ∀ j < i, w.exec (0 + j) = true := by
    intro j hj; simpa using hok j hj
  have hfail2 : w.exec (0 + i) = false := by simpa using hfail
  obtain ⟨a, _, c, d⟩ :=
    mainLoop_first_failure w dbType credentials file queries 0 i db hi hok2 hfail2
  refine ⟨a, c, d, ?_⟩
  intro hdb hfmt
  cases db with
  | none => simp at hdb
  | some h => exact mainLoop_no_panic w dbType credentials file hfmt queries 0 h

theorem main_loop_stops_at_first_failure_witness :
    (2 < fiveStatements.length ∧ (∀ j < 2, sampleWorld.exec j = true) ∧
      sampleWorld.exec 2 = false) ∧
    (notifications
        (mainLoop sampleWorld MYSQL sampleCredentials "x.sql".toList 0 (some 7)
          fiveStatements).1 = [] ∧
    (executed
        (mainLoop sampleWorld MYSQL sampleCredentials "x.sql".toList 0 (some 7)
          fiveStatements).1).map Prod.snd
      <+: fiveStatements.take (2 + 1) ∧
    ((mainLoop sampleWorld MYSQL sampleCredentials "x.sql".toList 0 (some 7)
        fiveStatements).2 ≠ Outcome.panicked →
      (executed
          (mainLoop sampleWorld MYSQL sampleCredentials "x.sql".toList 0 (some 7)
            fiveStatements).1).map Prod.snd
        = fiveStatements.take (2 + 1) ∧
      (mainLoop sampleWorld MYSQL sampleCredentials "x.sql".toList 0 (some 7)
        fiveStatements).2 = Outcome.failed) ∧
    ((some 7 : Option Handle).isSome = true →
      (dbTypeCnxStringFormats.lookup MYSQL).isSome = true →
      (mainLoop sampleWorld MYSQL sampleCredentials "x.sql".toList 0 (some 7)
        fiveStatements).2 ≠ Outcome.panicked)) :=
  ⟨by decide,
    main_loop_stops_at_first_failure sampleWorld MYSQL sampleCredentials "x.sql".toList
      (some 7) fiveStatements 2 (by decide) (by decide) rfl⟩

/-- The loop from position `k`, when every statement executes without error. -/
theorem mainLoop_all_ok (w : World) (dbType : Str) (credentials : DBCredentials)
    (file : Str) (queries : List Str) :
    ∀ (k : Nat) (db : Option Handle), (∀ j < queries.length, w.exec (k + j) = true) →
      (mainLoop w dbType credentials file k db queries).2 ≠ Outcome.panicked →
      (executed (mainLoop w dbType credentials file k db queries).1).map Prod.snd = queries ∧
      notifications (mainLoop w dbType credentials file k db queries).1
        = [successMessage file] ∧
      (mainLoop w dbType credentials file k db queries).1.getLast?
        = some (Event.notify (successMessage file)) ∧
      (mainLoop w dbType credentials file k db queries).2 = Outcome.done := by
  induction queries with
  | nil =>
    intro k db _ _
    simp [mainLoop, notifySuccess, successMessage, executed, notifications]
  | cons q qs ih =>
    intro k db hok hnp
    rcases mainLoop_step w dbType credentials file k db q qs with
      ⟨ev, he, hn, hm⟩ | ⟨ev, h, he, hn, hm⟩
    · rw [hm] at hnp; exact absurd rfl hnp
    · have hx : w.exec k = true := by simpa using hok 0 (by simp)
      have hok2 : ∀ j < qs.length, w.exec (k + 1 + j) = true := by
        intro j hj
        have := hok (j + 1) (by simpa using hj)
        rwa [show k + (j + 1) = k + 1 + j by omega] at this
      rw [hm] at hnp ⊢
      simp only [hx, if_true] at hnp ⊢
      obtain ⟨a, b, c, d⟩ := ih (k + 1) (some h) hok2 hnp
      refine ⟨?_, ?_, ?_, d⟩
      · simp [executed_append, he, executed, a]
      · simp [notifications_append, hn, notifications, b]
      · rw [List.getLast?_append, c]; rfl

/-- A success notification in the trace of the loop means that every statement
executed without error. -/
theorem mainLoop_notified (w : World) (dbType : Str) (credentials : DBCredentials)
    (file : Str) (queries : List Str) :
    ∀ (k : Nat) (db : Option Handle),
      notifications (mainLoop w dbType credentials file k db queries).1 ≠ [] →
      (∀ j < queries.length, w.exec (k + j) = true) ∧
      (mainLoop w dbType credentials file k db queries).2 = Outcome.done := by
  induction queries with
  | nil => intro k db _; simp [mainLoop]
  | cons q qs ih =>
    intro k db hne
    rcases mainLoop_step w dbType credentials file k db q qs with
      ⟨ev, he, hn, hm⟩ | ⟨ev, h, he, hn, hm⟩
    · rw [hm] at hne; exact absurd hn hne
    · by_cases hx : w.exec k = true
      · rw [hm] at hne ⊢
        simp only [hx, if_true] at hne ⊢
        have hne2 : notifications
            (mainLoop w dbType credentials file (k + 1) (some h) qs).1 ≠ [] := by
          intro e
          apply hne
          simp [notifications_append, hn, notifications, e]
        obtain ⟨a, b⟩ := ih (k + 1) (some h) hne2
        refine ⟨?_, b⟩
        intro j hj
        cases j with
        | zero => simpa using hx
        | succ j =>
          have := a j (by simpa using hj)
          rwa [show k + 1 + j = k + (j + 1) by omega] at this
      · rw [hm] at hne
        simp only [hx, Bool.false_eq_true, if_false] at hne
        exact absurd (by simp [notifications_append, hn, notifications]) hne

/-- C8: when every statement executes without error, then, unless the run
crashes with a Go panic (which a live handle and a kind with a format function
exclude), every statement is executed once in list order and `notifySuccess` is
called exactly once, as the last action, with a message that contains the file
path; and in any run of the loop a success notification implies that every
statement executed without error. -/
theorem main_loop_success_notifies_once (w : World) (dbType : Str)
    (credentials : DBCredentials) (file : Str) (db : Option Handle) (queries : List Str)
    (hok : ∀ j < queries.length, w.exec j = true) :
    ((mainLoop w dbType credentials file 0 db queries).2 ≠ Outcome.panicked →
      (executed (mainLoop w dbType credentials file 0 db queries).1).map Prod.snd = queries ∧
      notifications (mainLoop w dbType credentials file 0 db queries).1
        = [successMessage file] ∧
      (mainLoop w dbType credentials file 0 db queries).1.getLast?
        = some (Event.notify (successMessage file)) ∧
      (mainLoop w dbType credentials file 0 db queries).2 = Outcome.done) ∧
    (db.isSome = true → (dbTypeCnxStringFormats.lookup dbType).isSome = true →
      (mainLoop w dbType credentials file 0 db queries).2 ≠ Outcome.panicked) ∧
    file <:+: successMessage file ∧
    (∀ (v : World) (d : Option Handle) (qs : List Str),
      notifications (mainLoop v dbType credentials file 0 d qs).1 ≠ [] →
      (∀ j < qs.length, v.exec j = true) ∧
      (mainLoop v dbType credentials file 0 d qs).2 = Outcome.done) := by
  refine ⟨?_, ?_, ?_, ?_⟩
  · intro hnp
    exact mainLoop_all_ok w dbType credentials file queries 0 db
      (fun j hj => by simpa using hok j hj) hnp
  · intro hdb hfmt
    cases db with
    | none => simp at hdb
    | some h => exact mainLoop_no_panic w dbType credentials file hfmt queries 0 h
  · exact ⟨"Votre script SQL ".toList, " as été executé avec succès.".toList, rfl⟩
  · intro v d qs hne
    obtain ⟨a, b⟩ := mainLoop_notified v dbType credentials file qs 0 d hne
    exact ⟨fun j hj => by simpa using a j hj, b⟩

theorem main_loop_success_notifies_once_witness :
    (∀ j < fiveStatements.length, (sampleWorldWith []).exec j = true) ∧
    (((mainLoop (sampleWorldWith []) MYSQL sampleCredentials "x.sql".toList 0 (some 7)
        fiveStatements).2 ≠ Outcome.panicked →
      (executed (mainLoop (sampleWorldWith []) MYSQL sampleCredentials "x.sql".toList 0 (some 7)
        fiveStatements).1).map Prod.snd = fiveStatements ∧
      notifications (mainLoop (sampleWorldWith []) MYSQL sampleCredentials "x.sql".toList 0
        (some 7) fiveStatements).1 = [successMessage "x.sql".toList] ∧
      (mainLoop (sampleWorldWith []) MYSQL sampleCredentials "x.sql".toList 0 (some 7)
        fiveStatements).1.getLast? = some (Event.notify (successMessage "x.sql".toList)) ∧
      (mainLoop (sampleWorldWith []) MYSQL sampleCredentials "x.sql".toList 0 (some 7)
        fiveStatements).2 = Outcome.done) ∧
    ((some 7 : Option Handle).isSome = true →
      (dbTypeCnxStringFormats.lookup MYSQL).isSome = true →
      (mainLoop (sampleWorldWith []) MYSQL sampleCredentials "x.sql".toList 0 (some 7)
        fiveStatements).2 ≠ Outcome.panicked) ∧
    "x.sql".toList <:+: successMessage "x.sql".toList ∧
    (∀ (v : World) (d : Option Handle) (qs : List Str),
      notifications (mainLoop v MYSQL sampleCredentials "x.sql".toList 0 d qs).1 ≠ [] →
      (∀ j < qs.length, v.exec j = true) ∧
      (mainLoop v MYSQL sampleCredentials "x.sql".toList 0 d qs).2 = Outcome.done)) :=
  ⟨by decide,
    main_loop_success_notifies_once (sampleWorldWith []) MYSQL sampleCredentials
      "x.sql".toList (some 7) fiveStatements (by decide)⟩

theorem rdropWhile_append_rtakeWhile (f : Char → Bool) (s : Str) :
    s.rdropWhile f ++ s.rtakeWhile f = s := by
  unfold List.rdropWhile List.rtakeWhile
  rw [← List.reverse_append, List.takeWhile_append_dropWhile, List.reverse_reverse]

/-- `strings.Trim` removes a run of cutset characters at each end, and what is
left neither starts nor ends with a cutset character. -/
theorem Trim_decompose (s cutset : Str) :
    ∃ pre post, s = pre ++ strings.Trim s cutset ++ post ∧
      (∀ c ∈ pre, c ∈ cutset) ∧ (∀ c ∈ post, c ∈ cutset) ∧
      (∀ c, (strings.Trim s cutset).head? = some c → c ∉ cutset) ∧
      (∀ c, (strings.Trim s cutset).getLast? = some c → c ∉ cutset) := by
  refine ⟨s.takeWhile (fun c => cutset.contains c),
    (s.dropWhile (fun c => cutset.contains c)).rtakeWhile (fun c => cutset.contains c),
    ?_, ?_, ?_, ?_, ?_⟩
  · unfold strings.Trim
    rw [List.append_assoc, rdropWhile_append_rtakeWhile, List.takeWhile_append_dropWhile]
  · intro c hc
    have := List.mem_takeWhile_imp hc
    simpa using this
  · intro c hc
    have := List.mem_rtakeWhile_imp hc
    simpa using this
  · intro c hc
    have hne : (s.dropWhile (fun c => cutset.contains c)).rdropWhile
        (fun c => cutset.contains c) ≠ [] := by
      intro e; unfold strings.Trim at hc; rw [e] at hc; simp at hc
    have := (trimmed_ends (fun c => cutset.contains c) s hne).1 c hc
    simpa using this
  · intro c hc
    have hne : (s.dropWhile (fun c => cutset.contains c)).rdropWhile
        (fun c => cutset.contains c) ≠ [] := by
      intro e; unfold strings.Trim at hc; rw [e] at hc; simp at hc
    have := (trimmed_ends (fun c => cutset.contains c) s hne).2 c hc
    simpa using this

/-- After a handle `h` is live, statements that do not reconnect are all
executed against `h`. -/
theorem mainLoop_same_handle (w : World) (dbType : Str) (credentials : DBCredentials)
    (file : Str) (h : Handle) (queries : List Str) :
    ∀ (k : Nat),
      (∀ q ∈ queries,
        (recreateDatabaseConnexionWhenUseInstruction w dbType q credentials).2 = Res.ok none) →
      executed (mainLoop w dbType credentials file k (some h) queries).1
        <+: queries.map (fun q => (h, q)) := by
  induction queries with
  | nil => intro k _; simp [mainLoop, notifySuccess, executed]
  | cons q qs ih =>
    intro k hall
    have hq := hall q (List.mem_cons_self _ _)
    have ht := recreate_trace w dbType q credentials
    rcases hR : recreateDatabaseConnexionWhenUseInstruction w dbType q credentials with
      ⟨ev, database⟩
    rw [hR] at hq ht
    simp only at hq
    subst hq
    rw [mainLoop_cons_ok w dbType credentials file k (some h) q qs ev none h hR (by simp)]
    have hrec := ih (k + 1) (fun q2 hq2 => hall q2 (List.mem_cons_of_mem _ hq2))
    by_cases hx : w.exec k = true
    · simp only [hx, if_true, executed_append, ht.1, executed, List.nil_append,
        List.cons_append, List.map_cons]
      exact (List.prefix_cons_inj (h, q)).mpr hrec
    · simp only [hx, Bool.false_eq_true, if_false, executed_append, ht.1, executed,
        List.nil_append, List.map_cons]
      exact (List.prefix_cons_inj (h, q)).mpr (List.nil_prefix)

theorem handleFor_cons (w : World) (dbType : Str) (credentials : DBCredentials)
    (db : Option Handle) (q : Str) (stmts : List Str) :
    handleFor w dbType credentials db (q :: stmts)
      = handleFor w dbType credentials
          (if (reopened w dbType credentials q).isSome then reopened w dbType credentials q
            else db) stmts := by
  unfold handleFor
  cases hr : reopened w dbType credentials q with
  | none => simp [List.filterMap_cons, hr]
  | some h =>
    simp only [List.filterMap_cons, hr, Option.isSome_some, if_true]
    rw [List.getLast?_cons]
    cases (List.filterMap (reopened w dbType credentials) stmts).getLast? <;> rfl

theorem reopened_of_ok (w : World) (dbType : Str) (credentials : DBCredentials) (q : Str)
    (ev : List Event) (database : Option Handle)
    (hR : recreateDatabaseConnexionWhenUseInstruction w dbType q credentials
      = (ev, Res.ok database)) :
    reopened w dbType credentials q = database := by
  unfold reopened
  rw [hR]
  cases database <;> rfl

/-- Every statement the loop executes is the statement at its position, run
against the handle of the latest successful `USE` up to and including it, or
against the entry handle when there was none. -/
theorem mainLoop_handles (w : World) (dbType : Str) (credentials : DBCredentials)
    (file : Str) (queries : List Str) :
    ∀ (k : Nat) (db : Option Handle) (n : Nat) (e : Handle × Str),
      (executed (mainLoop w dbType credentials file k db queries).1)[n]? = some e →
      queries[n]? = some e.2 ∧
      handleFor w dbType credentials db (queries.take (n + 1)) = some e.1 := by
  induction queries with
  | nil => intro k db n e he; simp [mainLoop, notifySuccess, executed] at he
  | cons q qs ih =>
    intro k db n e he
    have ht := recreate_trace w dbType q credentials
    rcases hR : recreateDatabaseConnexionWhenUseInstruction w dbType q credentials with
      ⟨ev, database | _⟩
    · rw [hR] at ht
      have hro := reopened_of_ok w dbType credentials q ev database hR
      cases hdb : (if database.isSome then database else db) with
      | none =>
        rw [mainLoop_cons_nil_db w dbType credentials file k db q qs ev database hR hdb,
          ht.1] at he
        simp at he
      | some h =>
        rw [mainLoop_cons_ok w dbType credentials file k db q qs ev database h hR hdb] at he
        rw [List.take_succ_cons, handleFor_cons, hro, hdb]
        cases n with
        | zero =>
          have he2 : e = (h, q) := by
            by_cases hx : w.exec k = true
            · simp [hx, executed_append, ht.1, executed] at he
              exact he.symm
            · simp [hx, executed_append, ht.1, executed] at he
              exact he.symm
          subst he2
          simp [handleFor]
        | succ n =>
          by_cases hx : w.exec k = true
          · simp only [hx, if_true, executed_append, ht.1, executed, List.nil_append,
              List.cons_append, List.getElem?_cons_succ] at he
            have := ih (k + 1) (some h) n e he
            simpa using this
          · simp [hx, executed_append, ht.1, executed] at he
    · rw [hR] at ht
      rw [mainLoop_cons_panic w dbType credentials file k db q qs ev hR, ht.1] at he
      simp at he

/-- A reconnection that returns a handle shows that the kind has a format
function. -/
theorem format_of_reopened (w : World) (dbType : Str) (credentials : DBCredentials)
    (q : Str) (h : Handle)
    (hh : (recreateDatabaseConnexionWhenUseInstruction w dbType q credentials).2
      = Res.ok (some h)) :
    (dbTypeCnxStringFormats.lookup dbType).isSome = true := by
  unfold recreateDatabaseConnexionWhenUseInstruction at hh
  split at hh
  · unfold openDatabase at hh
    cases hl : dbTypeCnxStringFormats.lookup dbType with
    | none => rw [hl] at hh; simp at hh
    | some f => rfl
  · simp at hh

/-- C5, as the code has it: for a statement `q` that starts with `USE `, the
reconnection step is one call of `openDatabase` with the collected username,
password and host and with the rest of `q` stripped of ALL its leading and
trailing backticks as database name; when the call returns a handle, `q` is
executed against it, and in every script every statement executed after `q` is
executed against the handle of the latest successful `USE` up to it (so
against the handle of `q` until the next successful `USE`), all of them being
executed when every execution succeeds; a statement without the prefix makes no
call and is executed against the current handle. -/
theorem use_statement_reopens_connection (w : World) (dbType : Str)
    (credentials : DBCredentials) (file : Str) (q : Str)
    (hq : strings.HasPrefix q "USE ".toList = true) :
    (∃ pre name post, q = "USE ".toList ++ (pre ++ name ++ post) ∧
      (∀ c ∈ pre, c ∈ "`".toList) ∧ (∀ c ∈ post, c ∈ "`".toList) ∧
      (∀ c, name.head? = some c → c ∉ "`".toList) ∧
      (∀ c, name.getLast? = some c → c ∉ "`".toList) ∧
      recreateDatabaseConnexionWhenUseInstruction w dbType q credentials
        = openDatabase w dbType credentials.username credentials.password credentials.host
            name ∧
      openCalls (recreateDatabaseConnexionWhenUseInstruction w dbType q credentials).1
        = [(credentials.username, credentials.password, credentials.host, name)]) ∧
    (∀ (h : Handle),
      (recreateDatabaseConnexionWhenUseInstruction w dbType q credentials).2
        = Res.ok (some h) →
      ∀ (i : Nat) (db : Option Handle) (queries : List Str),
        (executed (mainLoop w dbType credentials file i db (q :: queries)).1).head?
          = some (h, q) ∧
        (∀ (n : Nat) (e : Handle × Str),
          (executed (mainLoop w dbType credentials file i db (q :: queries)).1)[n]? = some e →
          (q :: queries)[n]? = some e.2 ∧
          handleFor w dbType credentials db ((q :: queries).take (n + 1)) = some e.1) ∧
        ((∀ j < (q :: queries).length, w.exec (i + j) = true) →
          (executed (mainLoop w dbType credentials file i db (q :: queries)).1).map Prod.snd
            = q :: queries) ∧
        ((∀ q2 ∈ queries,
            (recreateDatabaseConnexionWhenUseInstruction w dbType q2 credentials).2
              = Res.ok none) →
          executed (mainLoop w dbType credentials file i db (q :: queries)).1
            <+: (q :: queries).map (fun s => (h, s)))) ∧
    (∀ (q2 : Str), strings.HasPrefix q2 "USE ".toList = false →
      recreateDatabaseConnexionWhenUseInstruction w dbType q2 credentials = ([], Res.ok none) ∧
      ∀ (i : Nat) (h : Handle) (queries : List Str),
        (mainLoop w dbType credentials file i (some h) (q2 :: queries)).1.head?
          = some (Event.exec h q2)) ∧
    openCalls
        (recreateDatabaseConnexionWhenUseInstruction w dbType "USE `mydb`".toList credentials).1
      = [(credentials.username, credentials.password, credentials.host, "mydb".toList)] := by
  refine ⟨?_, ?_, ?_, ?_⟩
  · obtain ⟨pre, post, hdec, hpre, hpost, hhead, hlast⟩ :=
      Trim_decompose (strings.TrimPrefix q "USE ".toList) "`".toList
    have hpfx : "USE ".toList <+: q := by
      simpa [strings.HasPrefix] using hq
    have hq2 : q = "USE ".toList ++ strings.TrimPrefix q "USE ".toList := by
      simp only [strings.TrimPrefix, hq, if_true]
      exact (List.prefix_iff_eq_append.mp hpfx).symm
    have hrec : recreateDatabaseConnexionWhenUseInstruction w dbType q credentials
        = openDatabase w dbType credentials.username credentials.password credentials.host
            (strings.Trim (strings.TrimPrefix q "USE ".toList) "`".toList) := by
      simp only [recreateDatabaseConnexionWhenUseInstruction, hq, if_true]
    refine ⟨pre, strings.Trim (strings.TrimPrefix q "USE ".toList) "`".toList, post,
      ?_, hpre, hpost, hhead, hlast, hrec, ?_⟩
    · rw [← hdec]; exact hq2
    · rw [hrec]; exact (openDatabase_trace w dbType _ _ _ _).1
  · intro h hh i db queries
    have hfmt := format_of_reopened w dbType credentials q h hh
    have ht := recreate_trace w dbType q credentials
    rcases hR : recreateDatabaseConnexionWhenUseInstruction w dbType q credentials with
      ⟨ev, database⟩
    rw [hR] at hh ht
    simp only at hh
    subst hh
    have hm := mainLoop_cons_ok w dbType credentials file i db q queries ev (some h) h hR
      (by simp)
    refine ⟨?_, mainLoop_handles w dbType credentials file (q :: queries) i db, ?_, ?_⟩
    · rw [hm]
      by_cases hx : w.exec i = true
      · simp [hx, executed_append, ht.1, executed]
      · simp [hx, executed_append, ht.1, executed]
    · intro hok
      have hnp : (mainLoop w dbType credentials file i db (q :: queries)).2
          ≠ Outcome.panicked := by
        rw [hm]
        by_cases hx : w.exec i = true
        · simp only [hx, if_true]
          exact mainLoop_no_panic w dbType credentials file hfmt queries (i + 1) h
        · simp [hx]
      exact (mainLoop_all_ok w dbType credentials file (q :: queries) i db hok hnp).1
    · intro hall
      rw [hm]
      have hrec := mainLoop_same_handle w dbType credentials file h queries (i + 1) hall
      by_cases hx : w.exec i = true
      · simp only [hx, if_true, executed_append, ht.1, executed, List.nil_append,
          List.cons_append, List.map_cons]
        exact (List.prefix_cons_inj (h, q)).mpr hrec
      · simp only [hx, Bool.false_eq_true, if_false, executed_append, ht.1, executed,
          List.nil_append, List.map_cons]
        exact (List.prefix_cons_inj (h, q)).mpr (List.nil_prefix)
  · intro q2 hq2
    have hR : recreateDatabaseConnexionWhenUseInstruction w dbType q2 credentials
        = ([], Res.ok none) := by
      simp only [recreateDatabaseConnexionWhenUseInstruction, hq2, Bool.false_eq_true, if_false]
    refine ⟨hR, ?_⟩
    intro i h queries
    rw [mainLoop_cons_ok w dbType credentials file i (some h) q2 queries [] none h hR (by simp)]
    by_cases hx : w.exec i = true
    · simp [hx]
    · simp [hx]
  · have hrec : recreateDatabaseConnexionWhenUseInstruction w dbType "USE `mydb`".toList
        credentials
        = openDatabase w dbType credentials.username credentials.password credentials.host
            "mydb".toList := by
      have hp : strings.HasPrefix "USE `mydb`".toList "USE ".toList = true := by decide
      have hn : strings.Trim (strings.TrimPrefix "USE `mydb`".toList "USE ".toList) "`".toList
          = "mydb".toList := by decide
      simp only [recreateDatabaseConnexionWhenUseInstruction, hp, if_true, hn]
    rw [hrec]
    exact (openDatabase_trace w dbType _ _ _ _).1

theorem use_statement_reopens_connection_witness :
    strings.HasPrefix "USE `mydb`".toList "USE ".toList = true ∧
    (recreateDatabaseConnexionWhenUseInstruction (sampleWorldWith []) MYSQL
        "USE `mydb`".toList sampleCredentials).2 = Res.ok (some 29) ∧
    ((executed (mainLoop (sampleWorldWith []) MYSQL sampleCredentials "x.sql".toList 0 (some 7)
        ("USE `mydb`".toList :: twoUseTail)).1).head? = some (29, "USE `mydb`".toList) ∧
      (∀ (n : Nat) (e : Handle × Str),
        (executed (mainLoop (sampleWorldWith []) MYSQL sampleCredentials "x.sql".toList 0
          (some 7) ("USE `mydb`".toList :: twoUseTail)).1)[n]? = some e →
        ("USE `mydb`".toList :: twoUseTail)[n]? = some e.2 ∧
        handleFor (sampleWorldWith []) MYSQL sampleCredentials (some 7)
          (("USE `mydb`".toList :: twoUseTail).take (n + 1)) = some e.1) ∧
      ((∀ j < ("USE `mydb`".toList :: twoUseTail).length,
          (sampleWorldWith []).exec (0 + j) = true) →
        (executed (mainLoop (sampleWorldWith []) MYSQL sampleCredentials "x.sql".toList 0
          (some 7) ("USE `mydb`".toList :: twoUseTail)).1).map Prod.snd
          = "USE `mydb`".toList :: twoUseTail) ∧
      ((∀ q2 ∈ twoUseTail,
          (recreateDatabaseConnexionWhenUseInstruction (sampleWorldWith []) MYSQL q2
            sampleCredentials).2 = Res.ok none) →
        executed (mainLoop (sampleWorldWith []) MYSQL sampleCredentials "x.sql".toList 0
          (some 7) ("USE `mydb`".toList :: twoUseTail)).1
          <+: ("USE `mydb`".toList :: twoUseTail).map (fun s => (29, s)))) :=
  ⟨by decide, by decide,
    (use_statement_reopens_connection (sampleWorldWith []) MYSQL sampleCredentials
      "x.sql".toList "USE `mydb`".toList (by decide)).2.1 29 (by decide) 0 (some 7)
      twoUseTail⟩

/-- C5 as stated fails: for the statement `USE` followed by the name `db` in two
pairs of backticks, `openDatabase` is called with the name `db`, not with the
name in one pair of backticks that stripping one wrapping pair leaves; and for
the name `db` with one leading backtick only, it is called with `db` too. -/
theorem use_strips_every_backtick :
    openCalls (recreateDatabaseConnexionWhenUseInstruction sampleWorld MYSQL
        "USE ``db``".toList sampleCredentials).1
      = [("root".toList, "root".toList, "localhost".toList, "db".toList)] ∧
    stripBacktickPair "``db``".toList = "`db`".toList ∧
    openCalls (recreateDatabaseConnexionWhenUseInstruction sampleWorld MYSQL
        "USE ``db``".toList sampleCredentials).1
      ≠ [("root".toList, "root".toList, "localhost".toList, stripBacktickPair "``db``".toList)] ∧
    openCalls (recreateDatabaseConnexionWhenUseInstruction sampleWorld MYSQL
        "USE `db".toList sampleCredentials).1
      = [("root".toList, "root".toList, "localhost".toList, "db".toList)] ∧
    stripBacktickPair "`db".toList = "`db".toList := by
  refine ⟨by decide, by decide, by decide, by decide, by decide⟩

/-! ## Sample runs -/

/-- The header may span several lines and need not be the first line; every
occurrence of the matched text is removed. -/
theorem getDbType_multiline_header :
    getDbType "-- x\n/**\n * Database:PostgresSQL\n **/\n\nSELECT 1;\n".toList
      = ("PostgresSQL".toList, "-- x\n\n\nSELECT 1;".toList) ∧
    getDbType "/* Database: PostgreSQL */\nSELECT 1;".toList = ([], []) ∧
    getDbType " /* Database: MySQL */\nSELECT 1;".toList = ([], []) := by
  decide

/-- The run of `sampleWorld`: the second statement reconnects, the third fails,
the last two are not executed, nothing is notified, the first handle is
closed. -/
theorem sample_run :
    (main sampleWorld ["run".toList, "a.txt".toList, "x.sql".toList]).2 = Res.ok () ∧
    executed (main sampleWorld ["run".toList, "a.txt".toList, "x.sql".toList]).1
      = [(25, "A".toList), (29, "USE `mydb`".toList), (29, "C".toList)] ∧
    notifications (main sampleWorld ["run".toList, "a.txt".toList, "x.sql".toList]).1 = [] ∧
    openCalls (main sampleWorld ["run".toList, "a.txt".toList, "x.sql".toList]).1
      = [("root".toList, "root".toList, "localhost".toList, []),
         ("root".toList, "root".toList, "localhost".toList, "mydb".toList)] ∧
    (main sampleWorld ["run".toList, "a.txt".toList, "x.sql".toList]).1.getLast?
      = some (Event.close 25) := by
  refine ⟨by decide, by decide, by decide, by decide, by decide⟩

/-- A script that reconnects twice: each statement runs against the handle of
the latest `USE`, the second `USE` included. -/
theorem two_use_run :
    executed (mainLoop (sampleWorldWith []) MYSQL sampleCredentials "x.sql".toList 0 (some 7)
        ("USE `mydb`".toList :: twoUseTail)).1
      = [(29, "USE `mydb`".toList), (29, "A".toList), (27, "USE `bb`".toList),
         (27, "B".toList)] := by
  decide

end RunSql
